import Mathlib

/-!
Verification development for the Medicine-Expiry-Tracker repository.

Shallow embedding of the core modules:
- `DateUtils` embeds `src/utils/dateUtils.js` (parseMonthYearDate, isExpired,
  daysUntilExpiry, getExpiryStatus).
- `Database` embeds `src/utils/database.js` (saveMedicine, getMedicineById,
  updateMedicine, deleteMedicine).
- `LocalStorageDB` embeds `src/utils/localStorageDB.js` (addMedicine,
  getMedicineById, updateMedicine, deleteMedicine).
- `NotificationManager` embeds `src/components/NotificationManager.js`
  (scheduleMedicineExpiryNotification, cancelMedicineNotification,
  saveNotificationId, updateAllNotifications).

JavaScript semantics are modelled explicitly: a JS `Date` is either an
Invalid Date or a millisecond time value (UTC model, no time zones); the
`Date(year, month, day)` constructor applies month normalization, the
two-digit-year rule (years 0..99 mean 1900..1999) and the ECMAScript time
clip (|ms| <= 8.64e15); `parseInt` skips whitespace, accepts a sign and an
optional 0x prefix and reads leading digits; relational comparison treats
`null` as 0 and any comparison involving NaN as false.  Calendar
conversions use the standard civil-from-days / days-from-civil algorithms.
AsyncStorage reads/writes are modelled on their success path (records and
binding tables round-trip through JSON unchanged); the external
notification service and the device/permission probes are parameters.
-/

/-- Days since 1970-01-01 of the civil date (y, m, d), proleptic Gregorian. -/
def daysFromCivil (y m d : Int) : Int :=
  let y2 := if m ≤ 2 then y - 1 else y
  let era := y2.fdiv 400
  let yoe := y2 - era * 400
  let mp := (m + 9).emod 12
  let doy := (153 * mp + 2).fdiv 5 + d - 1
  let doe := yoe * 365 + yoe.fdiv 4 - yoe.fdiv 100 + doy
  era * 146097 + doe - 719468

/-- Civil date (y, m, d) of a count of days since 1970-01-01. -/
def civilFromDays (z0 : Int) : Int × Int × Int :=
  let z := z0 + 719468
  let era := z.fdiv 146097
  let doe := z - era * 146097
  let yoe := (doe - doe.fdiv 1460 + doe.fdiv 36524 - doe.fdiv 146096).fdiv 365
  let y := yoe + era * 400
  let doy := doe - (365 * yoe + yoe.fdiv 4 - yoe.fdiv 100)
  let mp := (5 * doy + 2).fdiv 153
  let d := doy - (153 * mp + 2).fdiv 5 + 1
  let m := mp + (if mp < 10 then 3 else -9)
  (if m ≤ 2 then y + 1 else y, m, d)

/-- Milliseconds per day. -/
def msPerDay : Int := 86400000

/-- A JavaScript `Date`: either an Invalid Date (time value NaN) or a
millisecond time value. -/
inductive JSDate where
  | invalid : JSDate
  | valid : Int → JSDate
deriving DecidableEq

/-- ECMAScript TimeClip: time values are limited to 8.64e15 ms in magnitude;
anything beyond is an Invalid Date. -/
def mkDate (ms : Int) : JSDate :=
  if ms.natAbs ≤ 8640000000000000 then JSDate.valid ms else JSDate.invalid

/-- JS `a <= b` on two Dates (comparison of time values; false if either is
NaN). -/
def dleJS : JSDate → JSDate → Bool
  | JSDate.valid a, JSDate.valid b => decide (a ≤ b)
  | _, _ => false

/-- JS `a < b` on two Dates (false if either is NaN). -/
def dltJS : JSDate → JSDate → Bool
  | JSDate.valid a, JSDate.valid b => decide (a < b)
  | _, _ => false

/-- The result of `d.setDate(d.getDate() - 30)` on a first-of-month date:
thirty days earlier (NaN stays NaN, time clip applies). -/
def subDays30 : JSDate → JSDate
  | JSDate.invalid => JSDate.invalid
  | JSDate.valid ms => mkDate (ms - 30 * msPerDay)

/-- Whitespace skipped by JS `parseInt`. -/
def isJsSpace (c : Char) : Bool :=
  c = ' ' ∨ c = '\t' ∨ c = '\n' ∨ c = '\r' ∨ c = '\x0b' ∨ c = '\x0c'

/-- Decimal digit value. -/
def decVal (c : Char) : Option Nat :=
  if c.isDigit then some (c.toNat - 48) else none

/-- Hexadecimal digit value. -/
def hexVal (c : Char) : Option Nat :=
  if c.isDigit then some (c.toNat - 48)
  else if 'a' ≤ c ∧ c ≤ 'f' then some (c.toNat - 87)
  else if 'A' ≤ c ∧ c ≤ 'F' then some (c.toNat - 55)
  else none

/-- Maximal run of leading digits, interpreted in the given base; NaN (none)
when there is no digit. -/
def parseDigits (val : Char → Option Nat) (base : Nat) (cs : List Char) : Option Nat :=
  let ds := cs.takeWhile (fun c => (val c).isSome)
  if ds.isEmpty then none
  else some (ds.foldl (fun acc c => acc * base + (val c).getD 0) 0)

/-- JS `parseInt` after the sign: an 0x/0X prefix selects base 16, otherwise
base 10. -/
def parseIntNoSign (cs : List Char) : Option Nat :=
  match cs with
  | '0' :: 'x' :: rest => parseDigits hexVal 16 rest
  | '0' :: 'X' :: rest => parseDigits hexVal 16 rest
  | _ => parseDigits decVal 10 cs

/-- JS `parseInt(s)` with no radix argument: skip whitespace, optional sign,
maximal digit run; `none` is NaN. -/
def parseIntJS (cs0 : List Char) : Option Int :=
  let cs := cs0.dropWhile isJsSpace
  match cs with
  | '-' :: rest => (parseIntNoSign rest).map (fun n => -(n : Int))
  | '+' :: rest => (parseIntNoSign rest).map (fun n => (n : Int))
  | _ => (parseIntNoSign cs).map (fun n => (n : Int))

/-- JS `new Date(year, monthIndex, 1)`: NaN arguments give an Invalid Date;
years 0..99 are read as 1900..1999; the month index is normalized into the
year; the result is the time value of the first day of that month. -/
def jsNewDateMonth (year month : Option Int) : JSDate :=
  match year, month with
  | some y, some m =>
    let yr := if 0 ≤ y ∧ y ≤ 99 then y + 1900 else y
    let t := yr * 12 + m
    let yy := t.fdiv 12
    let mm := t - 12 * (t.fdiv 12)
    mkDate (msPerDay * daysFromCivil yy (mm + 1) 1)
  | _, _ => JSDate.invalid

/-- JS `s.split(sep)` for a one-character separator, on the character list
of the string. -/
def splitSlash (cs : List Char) : List (List Char) :=
  cs.foldr
    (fun c acc =>
      if c = '/' then [] :: acc
      else
        match acc with
        | [] => [[c]]
        | g :: gs => (c :: g) :: gs)
    [[]]

/-- Ceiling division of integers (`Math.ceil(a / b)` for exact rationals,
b positive). -/
def ceilDiv (a b : Int) : Int := -((-a).fdiv b)

namespace DateUtils

/-- Embeds `parseMonthYearDate` of dateUtils.js: falsy input gives null;
split on the slash; null when the month or year component is empty or
missing; otherwise `new Date(parseInt(year), parseInt(month) - 1, 1)`
(note: this Date object can be an Invalid Date, which is not null). -/
def parseMonthYearDate (s : String) : Option JSDate :=
  let cs := s.toList
  if cs = [] then none
  else
    let parts := splitSlash cs
    let month := (parts[0]?).getD []
    let year := (parts[1]?).getD []
    if month = [] then none
    else if year = [] then none
    else some (jsNewDateMonth (parseIntJS year) ((parseIntJS month).map (· - 1)))

/-- Embeds `new Date(today.getFullYear(), today.getMonth(), 1)` for a
reference instant `now` in ms. -/
def todayFirstOfMonth (now : Int) : JSDate :=
  let c := civilFromDays (now.fdiv msPerDay)
  jsNewDateMonth (some c.1) (some (c.2.1 - 1))

/-- Embeds `isExpired` of dateUtils.js. -/
def isExpired (s : String) (now : Int) : Bool :=
  match parseMonthYearDate s with
  | none => false
  | some d => dleJS d (todayFirstOfMonth now)

/-- A JS number-or-null as it flows through `daysUntilExpiry` and the
comparisons of `getExpiryStatus`. -/
inductive JSNum where
  | null : JSNum
  | nan : JSNum
  | int : Int → JSNum
deriving DecidableEq

/-- JS `x <= c` for a number-or-null and an integer constant: null coerces
to 0, NaN compares false. -/
def jsLe : JSNum → Int → Bool
  | JSNum.null, c => decide ((0 : Int) ≤ c)
  | JSNum.nan, _ => false
  | JSNum.int n, c => decide (n ≤ c)

/-- Embeds `daysUntilExpiry` of dateUtils.js: null for a null parse, NaN for
an Invalid Date, otherwise ceil of the ms difference over a day. -/
def daysUntilExpiry (s : String) (now : Int) : JSNum :=
  match parseMonthYearDate s with
  | none => JSNum.null
  | some JSDate.invalid => JSNum.nan
  | some (JSDate.valid ms) => JSNum.int (ceilDiv (ms - now) msPerDay)

/-- The status component of the object returned by `getExpiryStatus`. -/
inductive ExpStatus where
  | unknown : ExpStatus
  | expired : ExpStatus
  | critical : ExpStatus
  | warning : ExpStatus
  | good : ExpStatus
deriving DecidableEq

/-- Embeds `getExpiryStatus` of dateUtils.js (status field only; the
description string is presentation). -/
def getExpiryStatus (s : String) (now : Int) : ExpStatus :=
  if s.toList = [] then ExpStatus.unknown
  else if isExpired s now then ExpStatus.expired
  else
    let days := daysUntilExpiry s now
    if jsLe days 30 then ExpStatus.critical
    else if jsLe days 90 then ExpStatus.warning
    else ExpStatus.good

end DateUtils

namespace Spec

/-- Spec-side definition (for refinement comparison only), following the
spec words: strict `MM/YYYY` with a zero-padded month in [1,12] and a
four-digit year of positive value; every other string is unparseable. -/
def specStrictParse (s : String) : Option (Int × Int) :=
  match s.toList with
  | [m1, m2, '/', y1, y2, y3, y4] =>
    match decVal m1, decVal m2, decVal y1, decVal y2, decVal y3, decVal y4 with
    | some a, some b, some c, some d, some e, some f =>
      let mv : Int := (10 * a + b : Nat)
      let yv : Int := (1000 * c + 100 * d + 10 * e + f : Nat)
      if 1 ≤ mv ∧ mv ≤ 12 ∧ 1 ≤ yv then some (mv, yv) else none
    | _, _, _, _, _, _ => none
  | _ => none

/-- Spec-side month-start time value of a MonthYear (m, y), in ms. -/
def specMonthStartMs (m y : Int) : Int := msPerDay * daysFromCivil y m 1

end Spec

/-- An inventory record as stored: a JS object whose known fields are each
present (`some`) or absent (`none`). -/
structure StoredRecord where
  id : Option String := none
  name : Option String := none
  company : Option String := none
  expiryDate : Option String := none
  notes : Option String := none
  imageUri : Option String := none
  createdAt : Option String := none
  addedAt : Option Int := none
deriving DecidableEq, Inhabited

/-- JS object spread `\x7b ...old, ...upd \x7d` on one field: a field present in
`upd` wins, otherwise the old value is kept. -/
def mergeField (upd old : Option α) : Option α :=
  match upd with
  | some v => some v
  | none => old

/-- JS object spread of a partial record over an existing record. -/
def mergeRecord (old upd : StoredRecord) : StoredRecord where
  id := mergeField upd.id old.id
  name := mergeField upd.name old.name
  company := mergeField upd.company old.company
  expiryDate := mergeField upd.expiryDate old.expiryDate
  notes := mergeField upd.notes old.notes
  imageUri := mergeField upd.imageUri old.imageUri
  createdAt := mergeField upd.createdAt old.createdAt
  addedAt := mergeField upd.addedAt old.addedAt

namespace Database

/-- Embeds `saveMedicine` of database.js: assign `Date.now().toString()` as
id when the id is falsy (absent or empty), always stamp `addedAt` with
`Date.now()`, push, persist, return the id.  `now` is `Date.now()` in ms;
the list is the persisted collection. -/
def saveMedicine (now : Int) (m : StoredRecord) (meds : List StoredRecord) :
    String × List StoredRecord :=
  let id :=
    match m.id with
    | some s => if s = "" then toString now else s
    | none => toString now
  let m2 := { m with id := some id, addedAt := some now }
  (id, meds ++ [m2])

/-- Embeds `getMedicineById` of database.js. -/
def getMedicineById (id : String) (meds : List StoredRecord) : Option StoredRecord :=
  meds.find? (fun m => decide (m.id = some id))

/-- Embeds `updateMedicine` of database.js: find the record whose id equals
the given object's id, spread-merge the object over it, persist; false and
no write when there is no match. -/
def updateMedicine (upd : StoredRecord) (meds : List StoredRecord) :
    Bool × List StoredRecord :=
  match meds.findIdx? (fun m => decide (m.id = upd.id)) with
  | some i => (true, meds.set i (mergeRecord (meds.getD i default) upd))
  | none => (false, meds)

/-- Embeds `deleteMedicine` of database.js: filter the id out; persist and
return true only when the length changed. -/
def deleteMedicine (id : String) (meds : List StoredRecord) :
    Bool × List StoredRecord :=
  let fm := meds.filter (fun m => decide (¬ m.id = some id))
  if fm.length ≠ meds.length then (true, fm) else (false, meds)

end Database

namespace LocalStorageDB

/-- Embeds `addMedicine` of localStorageDB.js: always assign a fresh id
(`Date.now().toString()`) and `createdAt` (ISO string of now), push,
persist, return the new id. -/
def addMedicine (now : Int) (nowISO : String) (m : StoredRecord)
    (meds : List StoredRecord) : String × List StoredRecord :=
  let m2 := { m with id := some (toString now), createdAt := some nowISO }
  (toString now, meds ++ [m2])

/-- Embeds `getMedicineById` of localStorageDB.js. -/
def getMedicineById (id : String) (meds : List StoredRecord) : Option StoredRecord :=
  meds.find? (fun m => decide (m.id = some id))

/-- Embeds `updateMedicine` of localStorageDB.js: find the index of the
matching record, spread-merge the update over it, persist, return true;
false and no write when there is no match. -/
def updateMedicine (id : String) (upd : StoredRecord) (meds : List StoredRecord) :
    Bool × List StoredRecord :=
  match meds.findIdx? (fun m => decide (m.id = some id)) with
  | some i => (true, meds.set i (mergeRecord (meds.getD i default) upd))
  | none => (false, meds)

/-- Embeds `deleteMedicine` of localStorageDB.js: filter the id out,
persist, and return true unconditionally (no length check). -/
def deleteMedicine (id : String) (meds : List StoredRecord) :
    Bool × List StoredRecord :=
  (true, meds.filter (fun m => decide (¬ m.id = some id)))

end LocalStorageDB

namespace NotificationManager

/-- The persisted notification-id mapping (`medicine_notification_ids`): a
JS object read as an insertion-ordered association list with unique keys. -/
abbrev BindTable := List (String × String)

/-- Property access `obj[k]` on the binding table. -/
def lookupB (t : BindTable) (k : String) : Option String :=
  (t.find? (fun p => decide (p.1 = k))).map (fun p => p.2)

/-- Property assignment `obj[k] = v`: replace in place if the key exists,
otherwise append. -/
def setKey : BindTable → String → String → BindTable
  | [], k, v => [(k, v)]
  | p :: t, k, v => if p.1 = k then (k, v) :: t else p :: setKey t k v

/-- Property deletion `delete obj[k]`. -/
def delKey (t : BindTable) (k : String) : BindTable :=
  t.filter (fun p => decide (¬ p.1 = k))

/-- The external collaborators of NotificationManager.js: the device
capability probe, the permission outcome, the scheduling service (none
models a throw of `scheduleNotificationAsync`) and whether
`cancelScheduledNotificationAsync` throws for a given notification id. -/
structure NotifEnv where
  isDevice : Bool
  permission : Bool
  svc : JSDate → Option String
  cancelFails : String → Bool

/-- Embeds `requestNotificationPermissions`: false off-device, otherwise
the permission outcome (the Android channel setup does not affect it). -/
def requestNotificationPermissions (env : NotifEnv) : Bool :=
  env.isDevice && env.permission

/-- Embeds `saveNotificationId`: store the notification id under the
medicine id. -/
def saveNotificationId (mid nid : String) (st : BindTable) : BindTable :=
  setKey st mid nid

/-- The object key used by `saveNotificationId(medicine.id, ...)`: an absent
id indexes under the string rendering of undefined. -/
def bindKey (m : StoredRecord) : String := (m.id).getD "undefined"

/-- Embeds `scheduleMedicineExpiryNotification`.  Returns the notification
id (null on every skip/failure path), the updated binding table, and the
list of triggers passed to the scheduling service (so that no-op paths are
distinguishable from attempted schedules). -/
def scheduleMedicineExpiryNotification (env : NotifEnv) (now : Int)
    (m : StoredRecord) (st : BindTable) :
    Option String × BindTable × List JSDate :=
  if (m.expiryDate).getD "" = "" ∨ env.isDevice = false then (none, st, [])
  else
    match DateUtils.parseMonthYearDate ((m.expiryDate).getD "") with
    | none => (none, st, [])
    | some d =>
      let trigger := subDays30 d
      if dltJS trigger (JSDate.valid now) then (none, st, [])
      else if requestNotificationPermissions env = false then (none, st, [])
      else
        match env.svc trigger with
        | none => (none, st, [trigger])
        | some nid => (some nid, saveNotificationId (bindKey m) nid st, [trigger])

/-- Embeds `cancelMedicineNotification`.  Returns the binding table and the
notification ids passed to the cancel service.  When the service cancel
throws, the catch skips both the deletion and the write, so the table is
returned unchanged. -/
def cancelMedicineNotification (env : NotifEnv) (mid : String) (st : BindTable) :
    BindTable × List String :=
  if env.isDevice = false then (st, [])
  else
    match lookupB st mid with
    | none => (st, [])
    | some nid =>
      if nid = "" then (st, [])
      else if env.cancelFails nid then (st, [nid])
      else (delKey st mid, [nid])

/-- Embeds `updateAllNotifications`: off-device it is a no-op; otherwise it
cancels every stored notification id (per-item failures are caught and
ignored), clears the binding table, and reschedules every medicine in
order.  Returns the new binding table and the cancel-call trace. -/
def updateAllNotifications (env : NotifEnv) (now : Int)
    (meds : List StoredRecord) (st : BindTable) : BindTable × List String :=
  if env.isDevice = false then (st, [])
  else
    (meds.foldl
      (fun acc m => (scheduleMedicineExpiryNotification env now m acc).2.1) [],
     st.map (fun p => p.2))

/-- A record reaches the service and gets a binding exactly when its expiry
text parses to a valid date whose first-of-month minus 30 days is a valid
time value not before now (given a device with permission and a service
honouring the timestamp contract). -/
def schedulable (now : Int) (m : StoredRecord) : Bool :=
  match DateUtils.parseMonthYearDate ((m.expiryDate).getD "") with
  | some (JSDate.valid ms) =>
    match subDays30 (JSDate.valid ms) with
    | JSDate.valid t => decide (now ≤ t)
    | JSDate.invalid => false
  | _ => false

/-- The key set of a binding table. -/
def tableKeys (t : BindTable) : List String := t.map (fun p => p.1)

end NotificationManager

namespace DateUtils

/-- A successful parse means the input string was non-empty. -/
theorem parse_some_ne_nil {s : String} {d : JSDate}
    (h : parseMonthYearDate s = some d) : s.toList ≠ [] := by
  intro hc
  have hcd : s.data = [] := hc
  unfold parseMonthYearDate at h
  simp [hcd] at h

/-- Unfolding of getExpiryStatus into its decision chain. -/
theorem getExpiryStatus_eq (s : String) (now : Int) :
    getExpiryStatus s now =
      (if s.toList = [] then ExpStatus.unknown
       else if isExpired s now then ExpStatus.expired
       else if jsLe (daysUntilExpiry s now) 30 then ExpStatus.critical
       else if jsLe (daysUntilExpiry s now) 90 then ExpStatus.warning
       else ExpStatus.good) := rfl

/-- A null parse makes isExpired false. -/
theorem isExpired_of_parse_none {s : String} (h : parseMonthYearDate s = none)
    (now : Int) : isExpired s now = false := by
  unfold isExpired
  rw [h]

end DateUtils

open DateUtils NotificationManager in
/-- C1 (amended): getExpiryStatus returns `unknown` only when the expiry
text is absent/empty.  A non-empty text on which the parse returns null is
classified `critical` (the null day count coerces to 0 in `days <= 30`);
a text parsed to an Invalid Date is classified `good` (NaN comparisons are
false).  Otherwise the status is `expired` when isExpired holds, and else
follows the inclusive day-count thresholds: `critical` for days <= 30,
`warning` for days <= 90, `good` beyond. -/
theorem claim_C1_amended (s : String) (now : Int) :
    (s.toList = [] → getExpiryStatus s now = ExpStatus.unknown) ∧
    (s.toList ≠ [] → parseMonthYearDate s = none →
      getExpiryStatus s now = ExpStatus.critical) ∧
    (parseMonthYearDate s = some JSDate.invalid →
      getExpiryStatus s now = ExpStatus.good) ∧
    (s.toList ≠ [] → isExpired s now = true →
      getExpiryStatus s now = ExpStatus.expired) ∧
    (∀ n : Int, isExpired s now = false → daysUntilExpiry s now = JSNum.int n →
      getExpiryStatus s now =
        (if n ≤ 30 then ExpStatus.critical
         else if n ≤ 90 then ExpStatus.warning
         else ExpStatus.good)) := by
  refine ⟨?_, ?_, ?_, ?_, ?_⟩
  · intro h
    rw [getExpiryStatus_eq, if_pos h]
  · intro hs hp
    rw [getExpiryStatus_eq, if_neg hs, isExpired_of_parse_none hp]
    unfold daysUntilExpiry
    rw [hp]
    simp [jsLe]
  · intro hp
    have hs := parse_some_ne_nil hp
    have hexp : isExpired s now = false := by
      unfold isExpired
      rw [hp]
      rfl
    rw [getExpiryStatus_eq, if_neg hs, hexp]
    unfold daysUntilExpiry
    rw [hp]
    simp [jsLe]
  · intro hs hexp
    rw [getExpiryStatus_eq, if_neg hs, hexp]
    rfl
  · intro n hexp hdays
    have hs : s.toList ≠ [] := by
      intro hc
      have hcd : s.data = [] := hc
      unfold daysUntilExpiry parseMonthYearDate at hdays
      simp [hcd] at hdays
    rw [getExpiryStatus_eq, if_neg hs, hexp, hdays]
    simp only [jsLe, Bool.if_false_left]
    by_cases h30 : n ≤ 30
    · simp [h30]
    · by_cases h90 : n ≤ 90 <;> simp [h30, h90]

open DateUtils in
/-- C1 witness: the boundary classifications at day counts 30, 31, 90, 91
for expiry 07/2024, the unknown result for an empty text, and the expired
result for the current month, all obtained from the amended theorem. -/
theorem claim_C1_amended_witness :
    getExpiryStatus "" 0 = ExpStatus.unknown ∧
    getExpiryStatus "07/2024" (msPerDay * daysFromCivil 2024 6 1) = ExpStatus.critical ∧
    getExpiryStatus "07/2024" (msPerDay * daysFromCivil 2024 5 31) = ExpStatus.warning ∧
    getExpiryStatus "07/2024" (msPerDay * daysFromCivil 2024 4 2) = ExpStatus.warning ∧
    getExpiryStatus "07/2024" (msPerDay * daysFromCivil 2024 4 1) = ExpStatus.good ∧
    getExpiryStatus "06/2024" (msPerDay * daysFromCivil 2024 6 15) = ExpStatus.expired := by
  refine ⟨(claim_C1_amended "" 0).1 (by decide), ?_, ?_, ?_, ?_, ?_⟩
  · have h := (claim_C1_amended "07/2024" (msPerDay * daysFromCivil 2024 6 1)).2.2.2.2
      30 (by decide) (by decide)
    simpa using h
  · have h := (claim_C1_amended "07/2024" (msPerDay * daysFromCivil 2024 5 31)).2.2.2.2
      31 (by decide) (by decide)
    simpa using h
  · have h := (claim_C1_amended "07/2024" (msPerDay * daysFromCivil 2024 4 2)).2.2.2.2
      90 (by decide) (by decide)
    simpa using h
  · have h := (claim_C1_amended "07/2024" (msPerDay * daysFromCivil 2024 4 1)).2.2.2.2
      91 (by decide) (by decide)
    simpa using h
  · exact (claim_C1_amended "06/2024" (msPerDay * daysFromCivil 2024 6 15)).2.2.2.1
      (by decide) (by decide)

open DateUtils in
/-- C1 counterexample: the non-empty unparseable text "garbage" is
classified `critical` (with day count null), not `unknown` as the claim
states. -/
theorem claim_C1_counterexample :
    Spec.specStrictParse "garbage" = none ∧
    parseMonthYearDate "garbage" = none ∧
    getExpiryStatus "garbage" 0 = ExpStatus.critical ∧
    getExpiryStatus "garbage" 0 ≠ ExpStatus.unknown := by
  refine ⟨by decide, by decide, by decide, by decide⟩

open DateUtils in
/-- C6 (amended): parseMonthYearDate returns null exactly when the input is
empty or the first or second slash-separated component is empty or missing;
every other input yields a Date object, which can be an Invalid Date for
non-numeric components and is built leniently (no zero-padding or range
check on the month). -/
theorem claim_C6_amended (s : String) :
    parseMonthYearDate s = none ↔
      ((splitSlash s.toList)[0]?).getD [] = [] ∨
        ((splitSlash s.toList)[1]?).getD [] = [] := by
  unfold parseMonthYearDate
  by_cases hcs : s.toList = []
  · rw [if_pos hcs, hcs]
    simp [splitSlash]
  · rw [if_neg hcs]
    by_cases h0 : ((splitSlash s.toList)[0]?).getD [] = []
    · rw [if_pos h0]
      exact iff_of_true rfl (Or.inl h0)
    · rw [if_neg h0]
      by_cases h1 : ((splitSlash s.toList)[1]?).getD [] = []
      · rw [if_pos h1]
        exact iff_of_true rfl (Or.inr h1)
      · rw [if_neg h1]
        exact iff_of_false (fun h => Option.noConfusion h) (fun h => h.elim h0 h1)

open DateUtils in
/-- C6 counterexample: "1/2024" is not in strict zero-padded MM/YYYY form,
yet parseMonthYearDate returns a Date (January 2024) rather than null; and
"ab/cd" returns an Invalid Date object, which is not null either. -/
theorem claim_C6_counterexample :
    Spec.specStrictParse "1/2024" = none ∧
    parseMonthYearDate "1/2024" =
      some (JSDate.valid (msPerDay * daysFromCivil 2024 1 1)) ∧
    Spec.specStrictParse "ab/cd" = none ∧
    parseMonthYearDate "ab/cd" = some JSDate.invalid := by
  refine ⟨by decide, by decide, by decide, by decide⟩

open DateUtils in
/-- C7 (amended): isExpired is true exactly when the lenient parse yields a
valid Date and its time value is not after the first-of-month of the
reference date; it is false whenever the parse yields null or an Invalid
Date.  Years 0..99 in the expiry text (and a reference date lying in years
0..99) are shifted to 1900..1999 by the Date constructor, so for such
inputs the comparison uses the shifted dates. -/
theorem claim_C7_amended (s : String) (now : Int) :
    isExpired s now = true ↔
      ∃ ms ref : Int, parseMonthYearDate s = some (JSDate.valid ms) ∧
        todayFirstOfMonth now = JSDate.valid ref ∧ ms ≤ ref := by
  unfold isExpired
  cases hp : parseMonthYearDate s with
  | none => simp
  | some d =>
    cases d with
    | invalid => simp [dleJS]
    | valid ms =>
      cases hr : todayFirstOfMonth now with
      | invalid => simp [dleJS, hr]
      | valid ref => simp [dleJS, hr]

open DateUtils in
/-- C7 counterexample: "06/0051" is a spec-parseable MonthYear (June of
year 51) whose month start is well before the June 1940 reference month
start, yet isExpired is false, because the Date constructor turns year 51
into 1951, which lies after 1940. -/
theorem claim_C7_counterexample :
    Spec.specStrictParse "06/0051" = some (6, 51) ∧
    Spec.specMonthStartMs 6 51 ≤ Spec.specMonthStartMs 6 1940 ∧
    isExpired "06/0051" (msPerDay * daysFromCivil 1940 6 15) = false := by
  refine ⟨by decide, by decide, by decide⟩

/-- A sample stored record used by concrete witnesses and counterexamples. -/
def recA : StoredRecord :=
  { id := some "1", name := some "A", createdAt := some "2020" }

/-- C3 (amended): the store performs no name validation — any record,
including one with an empty or absent name, is appended and its id
returned.  saveMedicine of database.js keeps a truthy existing id and
otherwise assigns the string of now, and always overwrites `addedAt` with
now; addMedicine of localStorageDB.js always assigns a fresh id and a fresh
`createdAt`.  Both append the record, persist the full collection and
return the new id. -/
theorem claim_C3_amended (now : Int) (nowISO : String) (m : StoredRecord)
    (meds : List StoredRecord) :
    (Database.saveMedicine now m meds).2 =
      meds ++ [{ m with id := some (Database.saveMedicine now m meds).1,
                        addedAt := some now }] ∧
    ((m.id = none ∨ m.id = some "") →
      (Database.saveMedicine now m meds).1 = toString now) ∧
    (∀ s, m.id = some s → s ≠ "" → (Database.saveMedicine now m meds).1 = s) ∧
    (LocalStorageDB.addMedicine now nowISO m meds).1 = toString now ∧
    (LocalStorageDB.addMedicine now nowISO m meds).2 =
      meds ++ [{ m with id := some (toString now), createdAt := some nowISO }] := by
  refine ⟨rfl, ?_, ?_, rfl, rfl⟩
  · intro h
    unfold Database.saveMedicine
    rcases h with h | h <;> simp [h]
  · intro s hs hne
    unfold Database.saveMedicine
    rw [hs]
    simp [hne]

/-- C3 witness: saving a fresh record assigns id "1000" (the string of
now) and appends the stamped record. -/
theorem claim_C3_amended_witness :
    (Database.saveMedicine 1000 { name := some "Amoxicillin" } []).1 = "1000" ∧
    (Database.saveMedicine 1000 { name := some "Amoxicillin" } []).2 =
      [{ name := some "Amoxicillin", id := some "1000", addedAt := some 1000 }] := by
  refine ⟨?_, by decide⟩
  have h := (claim_C3_amended 1000 "iso" { name := some "Amoxicillin" } []).2.1
    (Or.inl rfl)
  simpa using h

/-- C3 counterexample: a record with an empty name is not rejected — it is
appended and an id is returned; and an existing `addedAt` timestamp is
overwritten rather than kept. -/
theorem claim_C3_counterexample :
    (Database.saveMedicine 1000 { name := some "" } []).1 = "1000" ∧
    (Database.saveMedicine 1000 { name := some "" } []).2 ≠ [] ∧
    (Database.saveMedicine 1000 { name := some "" } []).2 =
      [{ name := some "", id := some "1000", addedAt := some 1000 }] ∧
    (Database.saveMedicine 1000 { name := some "B", addedAt := some 5 } []).2.map
      (fun r => r.addedAt) = [some 1000] := by
  refine ⟨by decide, by decide, by decide, by decide⟩

/-- C4 (amended): update returns false and leaves the collection unchanged
when no record matches; when a record matches, it spread-merges the given
partial fields over it, so a field absent from the update (including id and
createdAt) is kept, but a field present in the update — id and createdAt
included — is overwritten with the supplied value. -/
theorem claim_C4_amended (id : String) (upd : StoredRecord)
    (meds : List StoredRecord) :
    ((∀ m ∈ meds, ¬ m.id = some id) →
      LocalStorageDB.updateMedicine id upd meds = (false, meds)) ∧
    ((LocalStorageDB.updateMedicine id upd meds).1 = false →
      (LocalStorageDB.updateMedicine id upd meds).2 = meds) ∧
    (∀ i, meds.findIdx? (fun m => decide (m.id = some id)) = some i →
      LocalStorageDB.updateMedicine id upd meds =
        (true, meds.set i (mergeRecord (meds.getD i default) upd))) ∧
    (∀ old : StoredRecord, upd.createdAt = none →
      (mergeRecord old upd).createdAt = old.createdAt) ∧
    (∀ old : StoredRecord, ∀ v, upd.createdAt = some v →
      (mergeRecord old upd).createdAt = some v) ∧
    (∀ old : StoredRecord, upd.id = none → (mergeRecord old upd).id = old.id) := by
  refine ⟨?_, ?_, ?_, ?_, ?_, ?_⟩
  · intro h
    have hn : meds.findIdx? (fun m => decide (m.id = some id)) = none := by
      rw [List.findIdx?_eq_none_iff]
      intro m hm
      simpa using h m hm
    unfold LocalStorageDB.updateMedicine
    rw [hn]
  · intro h
    unfold LocalStorageDB.updateMedicine at h ⊢
    cases hf : meds.findIdx? (fun m => decide (m.id = some id)) with
    | none => rfl
    | some i =>
      rw [hf] at h
      simp at h
  · intro i hf
    unfold LocalStorageDB.updateMedicine
    rw [hf]
  · intro old h
    simp [mergeRecord, mergeField, h]
  · intro old v h
    simp [mergeRecord, mergeField, h]
  · intro old h
    simp [mergeRecord, mergeField, h]

/-- C4 witness: updating a missing id returns false and leaves the list
unchanged; updating record "1" with a notes-only partial record merges the
notes and keeps id and createdAt. -/
theorem claim_C4_amended_witness :
    LocalStorageDB.updateMedicine "7" { notes := some "n" } [recA] =
      (false, [recA]) ∧
    LocalStorageDB.updateMedicine "1" { notes := some "n" } [recA] =
      (true, [{ recA with notes := some "n" }]) := by
  constructor
  · exact (claim_C4_amended "7" { notes := some "n" } [recA]).1 (by decide)
  · have h := (claim_C4_amended "1" { notes := some "n" } [recA]).2.2.1 0 (by decide)
    exact h.trans (by decide)

/-- C4 counterexample: a partial update that supplies createdAt (or id)
overwrites the stored record's createdAt (or id), contradicting the
claimed immutability of those fields under update. -/
theorem claim_C4_counterexample :
    (LocalStorageDB.updateMedicine "1" { createdAt := some "2024" } [recA]).1 = true ∧
    (LocalStorageDB.updateMedicine "1" { createdAt := some "2024" } [recA]).2.map
      (fun r => r.createdAt) = [some "2024"] ∧
    ¬ (LocalStorageDB.updateMedicine "1" { createdAt := some "2024" } [recA]).2.map
      (fun r => r.createdAt) = [some "2020"] ∧
    (LocalStorageDB.updateMedicine "1" { id := some "999" } [recA]).2.map
      (fun r => r.id) = [some "999"] := by
  refine ⟨by decide, by decide, by decide, by decide⟩

/-- C5 (amended): deleteMedicine of database.js returns true exactly when a
record with the id was present (and removed); deleteMedicine of
localStorageDB.js returns true unconditionally, even when nothing matched.
In both stores, a lookup of the deleted id afterwards yields null. -/
theorem claim_C5_amended (id : String) (meds : List StoredRecord) :
    ((Database.deleteMedicine id meds).1 = true ↔ ∃ m ∈ meds, m.id = some id) ∧
    ((Database.deleteMedicine id meds).1 = false →
      (Database.deleteMedicine id meds).2 = meds) ∧
    (LocalStorageDB.deleteMedicine id meds).1 = true ∧
    Database.getMedicineById id (Database.deleteMedicine id meds).2 = none ∧
    LocalStorageDB.getMedicineById id (LocalStorageDB.deleteMedicine id meds).2 =
      none := by
  have hfind : ∀ l : List StoredRecord, (∀ m ∈ l, ¬ m.id = some id) →
      l.find? (fun m => decide (m.id = some id)) = none := by
    intro l h
    rw [List.find?_eq_none]
    intro m hm
    simpa using h m hm
  have hmemf : ∀ m, m ∈ meds.filter (fun m => decide (¬ m.id = some id)) →
      ¬ m.id = some id := by
    intro m hm
    have := List.of_mem_filter hm
    simpa using this
  refine ⟨?_, ?_, rfl, ?_, ?_⟩
  · unfold Database.deleteMedicine
    by_cases h : (meds.filter (fun m => decide (¬ m.id = some id))).length =
        meds.length
    · rw [if_neg (by simpa using h)]
      have hall := List.filter_length_eq_length.mp h
      refine iff_of_false (by simp) ?_
      rintro ⟨m, hm, hid⟩
      have := hall m hm
      simp [hid] at this
    · rw [if_pos (by simpa using h)]
      have hlt : (meds.filter (fun m => decide (¬ m.id = some id))).length <
          meds.length := lt_of_le_of_ne (List.length_filter_le _ _) h
      have hex := List.length_filter_lt_length_iff_exists.mp hlt
      refine iff_of_true rfl ?_
      rcases hex with ⟨m, hm, hp⟩
      refine ⟨m, hm, ?_⟩
      simpa using hp
  · intro h
    unfold Database.deleteMedicine at h ⊢
    by_cases hl : (meds.filter (fun m => decide (¬ m.id = some id))).length =
        meds.length
    · rw [if_neg (by simpa using hl)]
    · rw [if_pos (by simpa using hl)] at h
      simp at h
  · unfold Database.deleteMedicine
    by_cases hl : (meds.filter (fun m => decide (¬ m.id = some id))).length =
        meds.length
    · rw [if_neg (by simpa using hl)]
      have hall := List.filter_length_eq_length.mp hl
      refine hfind meds ?_
      intro m hm
      have := hall m hm
      simpa using this
    · rw [if_pos (by simpa using hl)]
      exact hfind _ hmemf
  · exact hfind _ hmemf

/-- C5 witness: deleting the present id "1" returns true and a subsequent
lookup yields null; deleting the absent id "7" from database.js returns
false and leaves the collection unchanged. -/
theorem claim_C5_amended_witness :
    (Database.deleteMedicine "1" [recA]).1 = true ∧
    Database.getMedicineById "1" (Database.deleteMedicine "1" [recA]).2 = none ∧
    (Database.deleteMedicine "7" [recA]).2 = [recA] := by
  have h := claim_C5_amended "1" [recA]
  refine ⟨h.1.mpr ⟨recA, by simp, by decide⟩, h.2.2.2.1, ?_⟩
  exact (claim_C5_amended "7" [recA]).2.1 (by decide)

/-- C5 counterexample: on an empty collection nothing is present or
removed, yet deleteMedicine of localStorageDB.js still returns true, so
the claimed equivalence fails. -/
theorem claim_C5_counterexample :
    ¬ (((LocalStorageDB.deleteMedicine "1" ([] : List StoredRecord)).1 = true) ↔
        ∃ m ∈ ([] : List StoredRecord), m.id = some "1") := by
  decide

namespace NotificationManager

/-- Looking up the key just written finds the new value. -/
theorem lookupB_setKey_self (t : BindTable) (k v : String) :
    lookupB (setKey t k v) k = some v := by
  induction t with
  | nil => simp [setKey, lookupB]
  | cons p t ih =>
    by_cases h : p.1 = k
    · simp [setKey, h, lookupB]
    · simpa [setKey, h, lookupB, List.find?_cons_of_neg] using ih

/-- Writing one key leaves every other key's binding unchanged. -/
theorem lookupB_setKey_other (t : BindTable) (k v k2 : String) (h : k2 ≠ k) :
    lookupB (setKey t k v) k2 = lookupB t k2 := by
  induction t with
  | nil =>
    unfold setKey lookupB
    rw [List.find?_cons_of_neg _ (by simp [Ne.symm h]), List.find?_nil]
  | cons p t ih =>
    by_cases hp : p.1 = k
    · rw [show setKey (p :: t) k v = (k, v) :: t from by simp [setKey, hp]]
      unfold lookupB
      rw [List.find?_cons_of_neg _ (by simp [Ne.symm h]),
        List.find?_cons_of_neg _ (by simp [hp, Ne.symm h])]
    · rw [show setKey (p :: t) k v = p :: setKey t k v from by simp [setKey, hp]]
      by_cases hp2 : p.1 = k2
      · unfold lookupB
        rw [List.find?_cons_of_pos _ (by simp [hp2]),
          List.find?_cons_of_pos _ (by simp [hp2])]
      · unfold lookupB
        rw [List.find?_cons_of_neg _ (by simp [hp2]),
          List.find?_cons_of_neg _ (by simp [hp2])]
        exact ih

/-- find? commutes with a filter whose predicate is implied by the search
predicate. -/
theorem find?_filter_of_imp (p q : α → Bool) (l : List α)
    (h : ∀ x, p x = true → q x = true) :
    (l.filter q).find? p = l.find? p := by
  induction l with
  | nil => rfl
  | cons a l ih =>
    by_cases hq : q a = true
    · rw [List.filter_cons_of_pos hq]
      by_cases hp : p a = true
      · rw [List.find?_cons_of_pos _ hp, List.find?_cons_of_pos _ hp]
      · rw [List.find?_cons_of_neg _ hp, List.find?_cons_of_neg _ hp, ih]
    · have hp : ¬ p a = true := fun hpa => hq (h a hpa)
      rw [List.filter_cons_of_neg hq, List.find?_cons_of_neg _ hp, ih]

/-- Deleting a key removes its binding. -/
theorem lookupB_delKey_self (t : BindTable) (k : String) :
    lookupB (delKey t k) k = none := by
  unfold lookupB delKey
  rw [List.find?_eq_none.mpr]
  · rfl
  · intro p hp
    have := List.of_mem_filter hp
    simp at this
    simp [this]

/-- Deleting one key leaves every other key's binding unchanged. -/
theorem lookupB_delKey_other (t : BindTable) (k k2 : String) (h : k2 ≠ k) :
    lookupB (delKey t k) k2 = lookupB t k2 := by
  unfold lookupB delKey
  rw [find?_filter_of_imp]
  intro p hp
  simp at hp
  simp [hp, h]

/-- Key membership after a write. -/
theorem mem_tableKeys_setKey (t : BindTable) (k v k2 : String) :
    k2 ∈ tableKeys (setKey t k v) ↔ k2 = k ∨ k2 ∈ tableKeys t := by
  induction t with
  | nil => simp [setKey, tableKeys]
  | cons p t ih =>
    by_cases hp : p.1 = k
    · subst hp
      simp [setKey, tableKeys]
    · simp only [setKey, if_neg hp, tableKeys, List.map_cons, List.mem_cons]
      rw [show (tableKeys (setKey t k v) = (setKey t k v).map (fun p => p.1))
        from rfl] at ih
      rw [show (tableKeys t = t.map (fun p => p.1)) from rfl] at ih
      constructor
      · rintro (h1 | h2)
        · exact Or.inr (Or.inl h1)
        · rcases ih.mp h2 with h3 | h3
          · exact Or.inl h3
          · exact Or.inr (Or.inr h3)
      · rintro (h1 | h2 | h3)
        · exact Or.inr (ih.mpr (Or.inl h1))
        · exact Or.inl h2
        · exact Or.inr (ih.mpr (Or.inr h3))

/-- The table produced by cancelMedicineNotification is either untouched or
the table with the one key deleted. -/
theorem cancel_table_cases (env : NotifEnv) (mid : String) (st : BindTable) :
    (cancelMedicineNotification env mid st).1 = st ∨
    (cancelMedicineNotification env mid st).1 = delKey st mid := by
  unfold cancelMedicineNotification
  split
  · exact Or.inl rfl
  · split
    · exact Or.inl rfl
    · split
      · exact Or.inl rfl
      · split
        · exact Or.inl rfl
        · exact Or.inr rfl

end NotificationManager

/-- Environment fixture: a physical device with permission granted, a
scheduling service that accepts every request with id "n1", and a cancel
service that never throws. -/
def envOk : NotificationManager.NotifEnv :=
  { isDevice := true, permission := true, svc := fun _ => some "n1",
    cancelFails := fun _ => false }

/-- Environment fixture: a physical device with permission granted whose
scheduling service throws on every request and whose cancel service throws
on every request. -/
def envFail : NotificationManager.NotifEnv :=
  { isDevice := true, permission := true, svc := fun _ => none,
    cancelFails := fun _ => true }

/-- Environment fixture: a physical device with permission granted and a
scheduling service honouring the timestamp contract — it accepts every
valid trigger and rejects an Invalid Date trigger. -/
def envStrict : NotificationManager.NotifEnv :=
  { isDevice := true, permission := true,
    svc := fun d => match d with
      | JSDate.invalid => none
      | JSDate.valid _ => some "n1",
    cancelFails := fun _ => false }

open NotificationManager in
/-- C2 (amended): cancel is a no-op off-device and for an id with no
binding; when a binding exists and the service cancel succeeds, the binding
is removed; but when the service cancel throws, the catch skips the
removal, so the binding remains in the table. -/
theorem claim_C2_amended (env : NotifEnv) (mid : String) (st : BindTable) :
    (env.isDevice = false → cancelMedicineNotification env mid st = (st, [])) ∧
    (lookupB st mid = none → cancelMedicineNotification env mid st = (st, [])) ∧
    (∀ nid, env.isDevice = true → lookupB st mid = some nid → nid ≠ "" →
      env.cancelFails nid = false →
      cancelMedicineNotification env mid st = (delKey st mid, [nid]) ∧
      lookupB (cancelMedicineNotification env mid st).1 mid = none) ∧
    (∀ nid, env.isDevice = true → lookupB st mid = some nid → nid ≠ "" →
      env.cancelFails nid = true →
      cancelMedicineNotification env mid st = (st, [nid])) := by
  refine ⟨?_, ?_, ?_, ?_⟩
  · intro h
    unfold cancelMedicineNotification
    rw [if_pos h]
  · intro h
    unfold cancelMedicineNotification
    by_cases hd : env.isDevice = false
    · rw [if_pos hd]
    · rw [if_neg hd, h]
  · intro nid hd hl hne hcf
    have heq : cancelMedicineNotification env mid st = (delKey st mid, [nid]) := by
      unfold cancelMedicineNotification
      rw [if_neg (by simp [hd]), hl]
      dsimp only
      rw [if_neg hne, if_neg (by simp [hcf])]
    exact ⟨heq, by rw [heq]; exact lookupB_delKey_self st mid⟩
  · intro nid hd hl hne hcf
    unfold cancelMedicineNotification
    rw [if_neg (by simp [hd]), hl]
    dsimp only
    rw [if_neg hne, if_pos (by simp [hcf])]

open NotificationManager in
/-- C2 witness: on-device with a working service, cancelling id "1" removes
exactly its binding and issues one service cancel for "n1"; cancelling the
unbound id "7" is a no-op. -/
theorem claim_C2_amended_witness :
    cancelMedicineNotification envOk "1" [("1", "n1"), ("2", "n2")] =
      ([("2", "n2")], ["n1"]) ∧
    cancelMedicineNotification envOk "7" [("1", "n1"), ("2", "n2")] =
      ([("1", "n1"), ("2", "n2")], []) := by
  constructor
  · have h := (claim_C2_amended envOk "1" [("1", "n1"), ("2", "n2")]).2.2.1 "n1"
      rfl (by decide) (by decide) rfl
    exact h.1.trans (by decide)
  · exact (claim_C2_amended envOk "7" [("1", "n1"), ("2", "n2")]).2.1 (by decide)

open NotificationManager in
/-- C2 counterexample: when the service cancel throws, the binding for the
cancelled id is still present afterwards, although the cancel call was
attempted — the claim that the binding is removed regardless of
cancellation success is false. -/
theorem claim_C2_counterexample :
    (cancelMedicineNotification envFail "1" [("1", "n1")]).2 = ["n1"] ∧
    lookupB (cancelMedicineNotification envFail "1" [("1", "n1")]).1 "1" =
      some "n1" := by
  refine ⟨by decide, by decide⟩

open NotificationManager in
/-- C10: the single-record binding mutations only touch the given id's
entry — cancel leaves every other key's binding unchanged and either leaves
the table untouched or removes exactly the given id's entry, and
saveNotificationId sets the given id's entry and leaves every other key's
binding unchanged. -/
theorem claim_C10_frame (env : NotifEnv) (mid nid k : String) (st : BindTable)
    (h : k ≠ mid) :
    lookupB (cancelMedicineNotification env mid st).1 k = lookupB st k ∧
    lookupB (saveNotificationId mid nid st) k = lookupB st k ∧
    lookupB (saveNotificationId mid nid st) mid = some nid ∧
    ((cancelMedicineNotification env mid st).1 = st ∨
      lookupB (cancelMedicineNotification env mid st).1 mid = none) := by
  refine ⟨?_, ?_, ?_, ?_⟩
  · rcases cancel_table_cases env mid st with hc | hc
    · rw [hc]
    · rw [hc]
      exact lookupB_delKey_other st mid k h
  · exact lookupB_setKey_other st mid nid k h
  · exact lookupB_setKey_self st mid nid
  · rcases cancel_table_cases env mid st with hc | hc
    · exact Or.inl hc
    · exact Or.inr (by rw [hc]; exact lookupB_delKey_self st mid)

open NotificationManager in
/-- C10 witness: cancelling "1" and saving under "1" both leave the
binding of the other id "2" unchanged. -/
theorem claim_C10_frame_witness :
    lookupB (cancelMedicineNotification envOk "1" [("1", "n1"), ("2", "n2")]).1 "2" =
      some "n2" ∧
    lookupB (saveNotificationId "1" "n9" [("1", "n1"), ("2", "n2")]) "2" =
      some "n2" ∧
    lookupB (saveNotificationId "1" "n9" [("1", "n1"), ("2", "n2")]) "1" =
      some "n9" := by
  have h := claim_C10_frame envOk "1" "n9" "2" [("1", "n1"), ("2", "n2")]
    (by decide)
  exact ⟨h.1.trans (by decide), h.2.1.trans (by decide), h.2.2.1⟩

open NotificationManager DateUtils in
/-- C8 (amended): scheduling is a null no-op (no service call, table
unchanged) when the expiry text is absent/empty, when the device lacks
capability, when the parse returns null, when the trigger (first of the
expiry month minus 30 days) lies strictly before now, and — after the
trigger check passes — when permission is denied.  When all checks pass
and the service returns an id, the reminder is registered with that
trigger, the binding is stored under the record's id, and the id is
returned; when the service throws, the call was made but null is returned
and no binding is stored.  An expiry text that parses to an Invalid Date
passes the trigger check (a NaN comparison is false), so the service is
invoked with an invalid trigger. -/
theorem claim_C8_amended (env : NotifEnv) (now : Int) (m : StoredRecord)
    (st : BindTable) :
    ((m.expiryDate).getD "" = "" →
      scheduleMedicineExpiryNotification env now m st = (none, st, [])) ∧
    (env.isDevice = false →
      scheduleMedicineExpiryNotification env now m st = (none, st, [])) ∧
    (parseMonthYearDate ((m.expiryDate).getD "") = none →
      scheduleMedicineExpiryNotification env now m st = (none, st, [])) ∧
    (∀ d, parseMonthYearDate ((m.expiryDate).getD "") = some d →
      dltJS (subDays30 d) (JSDate.valid now) = true →
      scheduleMedicineExpiryNotification env now m st = (none, st, [])) ∧
    (∀ d, (m.expiryDate).getD "" ≠ "" → env.isDevice = true →
      parseMonthYearDate ((m.expiryDate).getD "") = some d →
      dltJS (subDays30 d) (JSDate.valid now) = false →
      env.permission = false →
      scheduleMedicineExpiryNotification env now m st = (none, st, [])) ∧
    (∀ d nid, (m.expiryDate).getD "" ≠ "" → env.isDevice = true →
      parseMonthYearDate ((m.expiryDate).getD "") = some d →
      dltJS (subDays30 d) (JSDate.valid now) = false →
      env.permission = true →
      env.svc (subDays30 d) = some nid →
      scheduleMedicineExpiryNotification env now m st =
        (some nid, setKey st (bindKey m) nid, [subDays30 d])) ∧
    (∀ d, (m.expiryDate).getD "" ≠ "" → env.isDevice = true →
      parseMonthYearDate ((m.expiryDate).getD "") = some d →
      dltJS (subDays30 d) (JSDate.valid now) = false →
      env.permission = true →
      env.svc (subDays30 d) = none →
      scheduleMedicineExpiryNotification env now m st =
        (none, st, [subDays30 d])) := by
  refine ⟨?_, ?_, ?_, ?_, ?_, ?_, ?_⟩
  · intro h
    unfold scheduleMedicineExpiryNotification
    rw [if_pos (Or.inl h)]
  · intro h
    unfold scheduleMedicineExpiryNotification
    rw [if_pos (Or.inr h)]
  · intro h
    unfold scheduleMedicineExpiryNotification
    by_cases hg : (m.expiryDate).getD "" = "" ∨ env.isDevice = false
    · rw [if_pos hg]
    · rw [if_neg hg, h]
  · intro d hp hlt
    unfold scheduleMedicineExpiryNotification
    by_cases hg : (m.expiryDate).getD "" = "" ∨ env.isDevice = false
    · rw [if_pos hg]
    · rw [if_neg hg, hp]
      dsimp only
      rw [if_pos hlt]
  · intro d hE hD hp hlt hperm
    unfold scheduleMedicineExpiryNotification
    rw [if_neg (by simp [hE, hD]), hp]
    dsimp only
    rw [if_neg (by simp [hlt]),
      if_pos (by simp [requestNotificationPermissions, hD, hperm])]
  · intro d nid hE hD hp hlt hperm hsvc
    unfold scheduleMedicineExpiryNotification
    rw [if_neg (by simp [hE, hD]), hp]
    dsimp only
    rw [if_neg (by simp [hlt]),
      if_neg (by simp [requestNotificationPermissions, hD, hperm]), hsvc]
    rfl
  · intro d hE hD hp hlt hperm hsvc
    unfold scheduleMedicineExpiryNotification
    rw [if_neg (by simp [hE, hD]), hp]
    dsimp only
    rw [if_neg (by simp [hlt]),
      if_neg (by simp [requestNotificationPermissions, hD, hperm]), hsvc]

/-- A sample medicine with a far-future, well-formed expiry date. -/
def med5 : StoredRecord := { id := some "5", expiryDate := some "12/2999" }

/-- A sample medicine with no expiry date. -/
def medNone : StoredRecord := { id := some "2" }

/-- A sample medicine whose expiry text has two non-numeric components, so
the lenient parse yields an Invalid Date object. -/
def medAb : StoredRecord := { id := some "7", expiryDate := some "ab/cd" }

open NotificationManager DateUtils in
/-- C8 witness: on a device with permission and a working service, a record
expiring 12/2999 gets its reminder scheduled for the first of December 2999
minus 30 days, the binding is stored under its id, and the notification id
is returned; a record with no expiry date is a null no-op. -/
theorem claim_C8_amended_witness :
    scheduleMedicineExpiryNotification envOk 0 med5 [] =
      (some "n1", [("5", "n1")],
        [JSDate.valid (msPerDay * daysFromCivil 2999 12 1 - 30 * msPerDay)]) ∧
    scheduleMedicineExpiryNotification envOk 0 medNone [("9", "n9")] =
      (none, [("9", "n9")], []) := by
  constructor
  · have h := (claim_C8_amended envOk 0 med5 []).2.2.2.2.2.1
      (JSDate.valid (msPerDay * daysFromCivil 2999 12 1)) "n1"
      (by decide) rfl (by decide) (by decide) rfl rfl
    exact h.trans (by decide)
  · exact (claim_C8_amended envOk 0 medNone [("9", "n9")]).1 rfl

open NotificationManager in
/-- C8 counterexample: for the unparseable expiry text "ab/cd" the claim
requires a null return with nothing scheduled, but the code invokes the
scheduling service with an Invalid Date trigger; with a service that
accepts the call it returns a notification id and stores a binding. -/
theorem claim_C8_counterexample :
    Spec.specStrictParse "ab/cd" = none ∧
    (scheduleMedicineExpiryNotification envOk 0 medAb []).1 = some "n1" ∧
    (scheduleMedicineExpiryNotification envOk 0 medAb []).2.1 = [("7", "n1")] ∧
    (scheduleMedicineExpiryNotification envOk 0 medAb []).2.2 = [JSDate.invalid] := by
  refine ⟨by decide, by decide, by decide, by decide⟩

namespace NotificationManager

/-- On a device with permission and a service honouring the timestamp
contract, one scheduling step either stores a binding under the record's
key (exactly when the record is schedulable) or leaves the table alone. -/
theorem sched_table_cases (env : NotifEnv) (now : Int)
    (hD : env.isDevice = true) (hP : env.permission = true)
    (hV : ∀ ms : Int, (env.svc (JSDate.valid ms)).isSome = true)
    (hI : env.svc JSDate.invalid = none) (m : StoredRecord) (acc : BindTable) :
    (schedulable now m = true ∧ ∃ nid,
      (scheduleMedicineExpiryNotification env now m acc).2.1 =
        setKey acc (bindKey m) nid) ∨
    (schedulable now m = false ∧
      (scheduleMedicineExpiryNotification env now m acc).2.1 = acc) := by
  have hperm : requestNotificationPermissions env = true := by
    simp [requestNotificationPermissions, hD, hP]
  by_cases hE : (m.expiryDate).getD "" = ""
  · right
    constructor
    · unfold schedulable
      rw [hE, show DateUtils.parseMonthYearDate "" = none from by decide]
    · unfold scheduleMedicineExpiryNotification
      rw [if_pos (Or.inl hE)]
  · cases hp : DateUtils.parseMonthYearDate ((m.expiryDate).getD "") with
    | none =>
      right
      constructor
      · unfold schedulable
        rw [hp]
      · unfold scheduleMedicineExpiryNotification
        rw [if_neg (by simp [hE, hD]), hp]
    | some d =>
      cases d with
      | invalid =>
        right
        constructor
        · unfold schedulable
          rw [hp]
        · unfold scheduleMedicineExpiryNotification
          rw [if_neg (by simp [hE, hD]), hp]
          dsimp only
          rw [show subDays30 JSDate.invalid = JSDate.invalid from rfl,
            if_neg (by simp [dltJS]), if_neg (by simp [hperm]), hI]
      | valid ms =>
        by_cases hclip : (ms - 30 * msPerDay).natAbs ≤ 8640000000000000
        · have htr : subDays30 (JSDate.valid ms) =
              JSDate.valid (ms - 30 * msPerDay) := by
            simp [subDays30, mkDate, hclip]
          by_cases hlt : ms - 30 * msPerDay < now
          · right
            constructor
            · unfold schedulable
              rw [hp]
              dsimp only
              rw [htr]
              dsimp only
              simp only [decide_eq_false_iff_not]
              omega
            · unfold scheduleMedicineExpiryNotification
              rw [if_neg (by simp [hE, hD]), hp]
              dsimp only
              rw [htr, if_pos (by simp [dltJS, hlt])]
          · left
            obtain ⟨nid, hnid⟩ :=
              Option.isSome_iff_exists.mp (hV (ms - 30 * msPerDay))
            constructor
            · unfold schedulable
              rw [hp]
              dsimp only
              rw [htr]
              dsimp only
              simp only [decide_eq_true_eq]
              omega
            · refine ⟨nid, ?_⟩
              unfold scheduleMedicineExpiryNotification
              rw [if_neg (by simp [hE, hD]), hp]
              dsimp only
              rw [htr, if_neg (by simp [dltJS]; omega),
                if_neg (by simp [hperm]), hnid]
              rfl
        · have htr : subDays30 (JSDate.valid ms) = JSDate.invalid := by
            simp [subDays30, mkDate, hclip]
          right
          constructor
          · unfold schedulable
            rw [hp]
            dsimp only
            rw [htr]
          · unfold scheduleMedicineExpiryNotification
            rw [if_neg (by simp [hE, hD]), hp]
            dsimp only
            rw [htr, if_neg (by simp [dltJS]), if_neg (by simp [hperm]), hI]

/-- Keys of the table obtained by folding the scheduling step over a list
of records: the starting keys plus the keys of the schedulable records. -/
theorem foldl_sched_keys (env : NotifEnv) (now : Int)
    (hD : env.isDevice = true) (hP : env.permission = true)
    (hV : ∀ ms : Int, (env.svc (JSDate.valid ms)).isSome = true)
    (hI : env.svc JSDate.invalid = none) :
    ∀ (meds : List StoredRecord) (acc : BindTable) (k : String),
      (k ∈ tableKeys (meds.foldl
        (fun a m => (scheduleMedicineExpiryNotification env now m a).2.1) acc) ↔
      (k ∈ tableKeys acc ∨
        ∃ m ∈ meds, schedulable now m = true ∧ bindKey m = k)) := by
  intro meds
  induction meds with
  | nil =>
    intro acc k
    simp
  | cons m rest ih =>
    intro acc k
    rw [List.foldl_cons, ih]
    rcases sched_table_cases env now hD hP hV hI m acc with
      ⟨hs, nid, hnid⟩ | ⟨hs, hacc⟩
    · rw [hnid, mem_tableKeys_setKey]
      constructor
      · rintro ((rfl | hk) | ⟨m2, hm2, hs2, hk2⟩)
        · exact Or.inr ⟨m, List.mem_cons_self m rest, hs, rfl⟩
        · exact Or.inl hk
        · exact Or.inr ⟨m2, List.mem_cons_of_mem m hm2, hs2, hk2⟩
      · rintro (hk | ⟨m2, hm2, hs2, hk2⟩)
        · exact Or.inl (Or.inr hk)
        · rcases List.mem_cons.mp hm2 with rfl | hm2a
          · exact Or.inl (Or.inl hk2.symm)
          · exact Or.inr ⟨m2, hm2a, hs2, hk2⟩
    · rw [hacc]
      constructor
      · rintro (hk | ⟨m2, hm2, hs2, hk2⟩)
        · exact Or.inl hk
        · exact Or.inr ⟨m2, List.mem_cons_of_mem m hm2, hs2, hk2⟩
      · rintro (hk | ⟨m2, hm2, hs2, hk2⟩)
        · exact Or.inl hk
        · rcases List.mem_cons.mp hm2 with rfl | hm2a
          · exact absurd hs2 (by simp [hs])
          · exact Or.inr ⟨m2, hm2a, hs2, hk2⟩

end NotificationManager

open NotificationManager in
/-- C9: on a device with permission and a scheduling service that accepts
every valid trigger and rejects invalid ones, updateAllNotifications first
issues a cancel for every stored notification id, then rebuilds the table
from scratch: a key is bound afterwards exactly when some input record is
schedulable (its expiry parses to a valid date whose first-of-month minus
30 days is not before now) and has that key; consequently a second run on
the same input yields the same key set. -/
theorem claim_C9_reconcile (env : NotifEnv) (now : Int)
    (meds : List StoredRecord) (st : BindTable)
    (hD : env.isDevice = true) (hP : env.permission = true)
    (hV : ∀ ms : Int, (env.svc (JSDate.valid ms)).isSome = true)
    (hI : env.svc JSDate.invalid = none) :
    ((updateAllNotifications env now meds st).2 = st.map (fun p => p.2)) ∧
    (∀ k, k ∈ tableKeys (updateAllNotifications env now meds st).1 ↔
      ∃ m ∈ meds, schedulable now m = true ∧ bindKey m = k) ∧
    (tableKeys (updateAllNotifications env now meds
        (updateAllNotifications env now meds st).1).1 =
      tableKeys (updateAllNotifications env now meds st).1) := by
  have hd2 : ¬ env.isDevice = false := by simp [hD]
  refine ⟨?_, ?_, ?_⟩
  · simp only [updateAllNotifications, if_neg hd2]
  · intro k
    simp only [updateAllNotifications, if_neg hd2]
    have h := foldl_sched_keys env now hD hP hV hI meds [] k
    simpa [tableKeys] using h
  · simp only [updateAllNotifications, if_neg hd2]

open NotificationManager in
/-- C9 witness: reconciling the two-record list (one schedulable with
expiry 12/2999, one with no expiry) from a table with a stale binding "9"
cancels the stale notification "n9", binds exactly key "5", and drops both
"9" and the unschedulable "2". -/
theorem claim_C9_reconcile_witness :
    (updateAllNotifications envStrict 0 [med5, medNone] [("9", "n9")]).2 =
      ["n9"] ∧
    "5" ∈ tableKeys (updateAllNotifications envStrict 0 [med5, medNone]
      [("9", "n9")]).1 ∧
    "9" ∉ tableKeys (updateAllNotifications envStrict 0 [med5, medNone]
      [("9", "n9")]).1 := by
  have h := claim_C9_reconcile envStrict 0 [med5, medNone] [("9", "n9")]
    rfl rfl (fun ms => rfl) rfl
  refine ⟨by simpa using h.1, ?_, ?_⟩
  · exact (h.2.1 "5").mpr ⟨med5, by simp, by decide, rfl⟩
  · intro hc
    rcases (h.2.1 "9").mp hc with ⟨m, hm, hs, hk⟩
    rcases List.mem_cons.mp hm with rfl | hm2
    · exact absurd hk (by decide)
    · rcases List.mem_cons.mp hm2 with rfl | hm3
      · exact absurd hs (by decide)
      · simp at hm3
